import Mathlib

set_option autoImplicit false

/-!
Verification of the pipe-ai prompt-acquisition and file-resolution core.

The development shallowly embeds the JavaScript sources:
* `src/lib/utils.js` (`loadFile`),
* `src/pipe-ai.js` (the prompt composer and final payload join in `main`),
* `src/lib/editorPrompt.js` (`getInputFromEditor` helpers: `getDefaultEditor`,
  `handleEditorProcess`, `readTempFile`, `deleteTempFile`),
* `src/lib/input.js` (`getInteractiveUserPrompt` close handler).

JavaScript string primitives (`split("\n")`, `join("\n")`, `trim`,
`startsWith("#")`) are modelled by executable functions on `List Char`;
the filesystem is modelled as a partial map from path strings to entries.
-/

/-- Whitespace test used by the model of the JavaScript `trim` family
(space, tab, carriage return, newline). -/
def isWsChar (c : Char) : Bool :=
  c = ' ' || c = '\t' || c = '\r' || c = '\n'

/-- Model of JavaScript `trimStart` on character lists. -/
def trimLeftChars (cs : List Char) : List Char :=
  cs.dropWhile isWsChar

/-- Model of JavaScript `trimEnd` on character lists. -/
def trimRightChars (cs : List Char) : List Char :=
  (cs.reverse.dropWhile isWsChar).reverse

/-- Model of JavaScript `String.prototype.trim` on character lists. -/
def trimChars (cs : List Char) : List Char :=
  trimRightChars (trimLeftChars cs)

/-- Model of JavaScript `String.prototype.trim` on strings. -/
def jsTrim (s : String) : String :=
  String.mk (trimChars s.data)

/-- Model of JavaScript `s.split("\n")` on character lists.
`splitLines [] = [[]]` matches the JavaScript result `[""]` on the
empty string. -/
def splitLines : List Char → List (List Char)
  | [] => [[]]
  | c :: cs =>
    if c = '\n' then [] :: splitLines cs
    else
      match splitLines cs with
      | [] => [[c]]
      | l :: ls => (c :: l) :: ls

/-- Model of JavaScript `lines.join("\n")` on character lists. -/
def joinLines : List (List Char) → List Char
  | [] => []
  | [l] => l
  | l :: ls => l ++ '\n' :: joinLines ls

/-- Test whether a character list starts with the character (#). -/
def startsWithHash : List Char → Bool
  | [] => false
  | c :: _ => c = '#'

/-- The keep-predicate of the editor content filter: the JavaScript
`!line.trim().startsWith("#")` from `readTempFile` in
`src/lib/editorPrompt.js`. A line is good when its first non-blank
character is not (#). -/
def goodLine (l : List Char) : Bool :=
  ! startsWithHash (trimChars l)

theorem splitLines_ne_nil (cs : List Char) : splitLines cs ≠ [] := by
  induction cs with
  | nil => simp [splitLines]
  | cons c cs ih =>
    simp only [splitLines]
    by_cases h : c = '\n'
    · simp [h]
    · simp only [h, if_false]
      cases hs : splitLines cs with
      | nil => simp
      | cons l ls => simp

theorem splitLines_no_newline {cs : List Char} {l : List Char}
    (hl : l ∈ splitLines cs) : '\n' ∉ l := by
  induction cs generalizing l with
  | nil =>
    simp [splitLines] at hl
    simp [hl]
  | cons c cs ih =>
    simp only [splitLines] at hl
    by_cases h : c = '\n'
    · simp [h] at hl
      rcases hl with hl | hl
      · simp [hl]
      · exact ih hl
    · simp only [h, if_false] at hl
      cases hs : splitLines cs with
      | nil => exact absurd hs (splitLines_ne_nil cs)
      | cons m ms =>
        rw [hs] at hl
        rcases List.mem_cons.mp hl with hl | hl
        · subst hl
          intro hmem
          rcases List.mem_cons.mp hmem with hc | hc
          · exact h hc.symm
          · exact ih (hs ▸ List.mem_cons_self m ms) hc
        · exact ih (hs ▸ List.mem_cons_of_mem m hl)

theorem splitLines_eq_single {l : List Char} (h : '\n' ∉ l) : splitLines l = [l] := by
  induction l with
  | nil => rfl
  | cons c l ih =>
    have hc : ¬ c = '\n' := fun hc => h (hc ▸ List.mem_cons_self c l)
    have hl : '\n' ∉ l := fun hm => h (List.mem_cons_of_mem c hm)
    simp [splitLines, hc, ih hl]

theorem splitLines_append_newline {l : List Char} (rest : List Char) (h : '\n' ∉ l) :
    splitLines (l ++ '\n' :: rest) = l :: splitLines rest := by
  induction l with
  | nil => simp [splitLines]
  | cons c l ih =>
    have hc : ¬ c = '\n' := fun hc => h (hc ▸ List.mem_cons_self c l)
    have hl : '\n' ∉ l := fun hm => h (List.mem_cons_of_mem c hm)
    simp [splitLines, hc, ih hl]

theorem splitLines_joinLines {L : List (List Char)} (hne : L ≠ [])
    (h : ∀ l ∈ L, '\n' ∉ l) : splitLines (joinLines L) = L := by
  induction L with
  | nil => exact absurd rfl hne
  | cons l L ih =>
    cases L with
    | nil =>
      simp only [joinLines]
      exact splitLines_eq_single (h l (List.mem_cons_self l []))
    | cons m M =>
      have hstep : joinLines (l :: m :: M) = l ++ '\n' :: joinLines (m :: M) := rfl
      rw [hstep, splitLines_append_newline _ (h l (List.mem_cons_self l (m :: M)))]
      have : splitLines (joinLines (m :: M)) = m :: M :=
        ih (by simp) (fun x hx => h x (List.mem_cons_of_mem l hx))
      rw [this]

theorem trimChars_cons_ws {c : Char} (l : List Char) (h : isWsChar c = true) :
    trimChars (c :: l) = trimChars l := by
  simp [trimChars, trimLeftChars, List.dropWhile_cons, h]

theorem trimRightChars_append_ws {c : Char} (l : List Char) (h : isWsChar c = true) :
    trimRightChars (l ++ [c]) = trimRightChars l := by
  simp [trimRightChars, List.dropWhile_cons, h]

theorem trimRightChars_append_not_ws {c : Char} (l : List Char) (h : isWsChar c = false) :
    trimRightChars (l ++ [c]) = l ++ [c] := by
  simp [trimRightChars, List.dropWhile_cons, h]

theorem trimChars_append_ws {c : Char} (l : List Char) (h : isWsChar c = true) :
    trimChars (l ++ [c]) = trimChars l := by
  induction l with
  | nil => simp [trimChars, trimLeftChars, trimRightChars, List.dropWhile_cons, h]
  | cons a l ih =>
    by_cases ha : isWsChar a = true
    · have h1 : trimChars (a :: (l ++ [c])) = trimChars (l ++ [c]) :=
        trimChars_cons_ws (l ++ [c]) ha
      have h2 : trimChars (a :: l) = trimChars l := trimChars_cons_ws l ha
      rw [List.cons_append, h1, h2, ih]
    · have hfa : isWsChar a = false := by simpa using ha
      have h1 : trimLeftChars (a :: (l ++ [c])) = a :: (l ++ [c]) := by
        simp [trimLeftChars, List.dropWhile_cons, hfa]
      have h2 : trimLeftChars (a :: l) = a :: l := by
        simp [trimLeftChars, List.dropWhile_cons, hfa]
      rw [List.cons_append]
      unfold trimChars
      rw [h1, h2]
      have : a :: (l ++ [c]) = (a :: l) ++ [c] := by simp
      rw [this, trimRightChars_append_ws _ h]

theorem goodLine_cons_ws {c : Char} (l : List Char) (h : isWsChar c = true) :
    goodLine (c :: l) = goodLine l := by
  simp [goodLine, trimChars_cons_ws l h]

theorem goodLine_append_ws {c : Char} (l : List Char) (h : isWsChar c = true) :
    goodLine (l ++ [c]) = goodLine l := by
  simp [goodLine, trimChars_append_ws l h]

theorem all_goodLine_trimLeft (cs : List Char)
    (h : (splitLines cs).all goodLine = true) :
    (splitLines (trimLeftChars cs)).all goodLine = true := by
  induction cs with
  | nil => exact h
  | cons c cs ih =>
    by_cases hw : isWsChar c = true
    · have hstep : trimLeftChars (c :: cs) = trimLeftChars cs := by
        simp [trimLeftChars, List.dropWhile_cons, hw]
      rw [hstep]
      apply ih
      by_cases hn : c = '\n'
      · have : splitLines (c :: cs) = [] :: splitLines cs := by simp [splitLines, hn]
        rw [this] at h
        simp only [List.all_cons, Bool.and_eq_true] at h
        exact h.2
      · cases hs : splitLines cs with
        | nil => exact absurd hs (splitLines_ne_nil cs)
        | cons m ms =>
          have : splitLines (c :: cs) = (c :: m) :: ms := by simp [splitLines, hn, hs]
          rw [this] at h
          simp only [List.all_cons, Bool.and_eq_true] at h
          simp only [List.all_cons, Bool.and_eq_true]
          exact ⟨by rw [← goodLine_cons_ws m hw]; exact h.1, h.2⟩
    · have hfw : isWsChar c = false := by simpa using hw
      have hstep : trimLeftChars (c :: cs) = c :: cs := by
        simp [trimLeftChars, List.dropWhile_cons, hfw]
      rw [hstep]
      exact h

theorem splitLines_cons_newline (cs : List Char) :
    splitLines ('\n' :: cs) = [] :: splitLines cs := by
  simp [splitLines]

theorem splitLines_cons_not_newline {c : Char} {cs m : List Char} {ms : List (List Char)}
    (h : ¬ c = '\n') (hs : splitLines cs = m :: ms) :
    splitLines (c :: cs) = (c :: m) :: ms := by
  simp [splitLines, h, hs]

theorem splitLines_append_last_newline (cs : List Char) :
    splitLines (cs ++ ['\n']) = splitLines cs ++ [[]] := by
  induction cs with
  | nil => rfl
  | cons c cs ih =>
    by_cases hn : c = '\n'
    · subst hn
      rw [List.cons_append, splitLines_cons_newline, splitLines_cons_newline, ih]
      rfl
    · cases hs : splitLines cs with
      | nil => exact absurd hs (splitLines_ne_nil cs)
      | cons m ms =>
        have hs2 : splitLines (cs ++ ['\n']) = m :: (ms ++ [[]]) := by
          rw [ih, hs]; rfl
        rw [List.cons_append, splitLines_cons_not_newline hn hs2,
          splitLines_cons_not_newline hn hs]
        rfl

/-- Append a character to the last line of a nonempty line list (the effect a
trailing non-newline character has on the result of `splitLines`). -/
def appendLast (c : Char) : List (List Char) → List (List Char)
  | [] => [[c]]
  | [l] => [l ++ [c]]
  | l :: m :: ms => l :: appendLast c (m :: ms)

theorem splitLines_append_last_char {c : Char} (cs : List Char) (hn : ¬ c = '\n') :
    splitLines (cs ++ [c]) = appendLast c (splitLines cs) := by
  induction cs with
  | nil => simp [splitLines, hn, appendLast]
  | cons a cs ih =>
    by_cases ha : a = '\n'
    · subst ha
      rw [List.cons_append, splitLines_cons_newline, splitLines_cons_newline, ih]
      cases hs : splitLines cs with
      | nil => exact absurd hs (splitLines_ne_nil cs)
      | cons m ms => rfl
    · cases hs : splitLines cs with
      | nil => exact absurd hs (splitLines_ne_nil cs)
      | cons m ms =>
        rw [hs] at ih
        cases ms with
        | nil =>
          have hs2 : splitLines (cs ++ [c]) = (m ++ [c]) :: [] := by
            rw [ih]; rfl
          rw [List.cons_append, splitLines_cons_not_newline ha hs2,
            splitLines_cons_not_newline ha hs]
          rfl
        | cons m2 ms2 =>
          have hs2 : splitLines (cs ++ [c]) = m :: appendLast c (m2 :: ms2) := by
            rw [ih]; rfl
          rw [List.cons_append, splitLines_cons_not_newline ha hs2,
            splitLines_cons_not_newline ha hs]
          rfl

theorem all_goodLine_appendLast {c : Char} (h : isWsChar c = true) :
    ∀ L : List (List Char), (appendLast c L).all goodLine = L.all goodLine
  | [] => by
    have hg : goodLine [c] = true := by
      have : trimChars [c] = [] := by
        simp [trimChars, trimLeftChars, trimRightChars, List.dropWhile_cons, h]
      simp [goodLine, this, startsWithHash]
    simp [appendLast, hg]
  | [l] => by
    simp [appendLast, goodLine_append_ws l h]
  | l :: m :: ms => by
    have ih := all_goodLine_appendLast h (m :: ms)
    simp only [appendLast, List.all_cons, ih]

theorem all_goodLine_trimRight (cs : List Char)
    (h : (splitLines cs).all goodLine = true) :
    (splitLines (trimRightChars cs)).all goodLine = true := by
  induction cs using List.reverseRecOn with
  | nil => exact h
  | append_singleton xs c ih =>
    by_cases hw : isWsChar c = true
    · rw [trimRightChars_append_ws xs hw]
      apply ih
      by_cases hn : c = '\n'
      · subst hn
        rw [splitLines_append_last_newline] at h
        rw [List.all_append] at h
        exact (Bool.and_eq_true_iff.mp h).1
      · rw [splitLines_append_last_char xs hn] at h
        rw [all_goodLine_appendLast hw] at h
        exact h
    · have hfw : isWsChar c = false := by simpa using hw
      rw [trimRightChars_append_not_ws xs hfw]
      exact h

theorem all_goodLine_trimChars (cs : List Char)
    (h : (splitLines cs).all goodLine = true) :
    (splitLines (trimChars cs)).all goodLine = true :=
  all_goodLine_trimRight _ (all_goodLine_trimLeft _ h)

/-!
Editor session model, from `getInputFromEditor` and its helpers in
`src/lib/editorPrompt.js` (`handleEditorProcess`, `readTempFile`,
`deleteTempFile`, lines 94-153).
-/

/-- The content processing of `readTempFile`:
`content.split("\n").filter(line => !line.trim().startsWith("#")).join("\n").trim()`. -/
def processEditorContent (content : String) : String :=
  String.mk (trimChars (joinLines ((splitLines content.data).filter goodLine)))

/-- Model of `readTempFile` in `src/lib/editorPrompt.js`: the raw file read
may fail (its error message is rethrown verbatim); otherwise the content is
processed and an empty result is an error. -/
def readTempFile (rawRead : Except String String) : Except String String :=
  match rawRead with
  | Except.error m => Except.error m
  | Except.ok content =>
    let processedContent := processEditorContent content
    if processedContent = "" then Except.error "No input found in the editor."
    else Except.ok processedContent

/-- The two events `handleEditorProcess` listens for: the editor child
process exits with a code, or it fails to launch. -/
inductive EditorEvent
  | exited (code : Int)
  | launchError (msg : String)

/-- Final state of one editor acquisition: the settled promise, whether the
temporary file still exists, and the warnings logged. -/
structure SessionOutcome where
  result : Except String String
  tempFileExists : Bool
  warnings : List String

/-- Model of `deleteTempFile`: attempt the cleanup of the temporary file;
a failure is logged as a warning and swallowed. `cleanupError = none` means
the deletion succeeded. -/
def deleteTempFile (cleanupError : Option String) (tmpPath : String)
    (res : Except String String) : SessionOutcome :=
  match cleanupError with
  | none => { result := res, tempFileExists := false, warnings := [] }
  | some e =>
    { result := res, tempFileExists := true,
      warnings := ["Warning: Failed to delete temporary file \"" ++ tmpPath ++ "\": " ++ e] }

/-- Model of `handleEditorProcess` in `src/lib/editorPrompt.js`: on the exit
event a non-zero code is an error, otherwise the temp file is read and
processed; on the launch-error event the error is rejected; on every path the
`finally` block runs `deleteTempFile`. -/
def handleEditorProcess (ev : EditorEvent) (rawRead : Except String String)
    (cleanupError : Option String) (tmpPath : String) : SessionOutcome :=
  match ev with
  | EditorEvent.exited code =>
    let attempt : Except String String :=
      if code ≠ 0 then Except.error ("Editor exited with code " ++ toString code)
      else readTempFile rawRead
    deleteTempFile cleanupError tmpPath attempt
  | EditorEvent.launchError m =>
    deleteTempFile cleanupError tmpPath (Except.error ("Failed to launch editor: " ++ m))

/-- Claim C5: for every file content the user leaves in the editor temp file,
the editor strategy never returns a prompt containing a line whose first
non-blank character is (#): every line of a successfully returned prompt
satisfies `goodLine`, which rejects lines whose trimmed form starts with (#),
leading whitespace included. -/
theorem editor_output_has_no_comment_line (content p : String)
    (h : readTempFile (Except.ok content) = Except.ok p) :
    (splitLines p.data).all goodLine = true := by
  have hp : p = processEditorContent content := by
    by_cases hemp : processEditorContent content = ""
    · simp [readTempFile, hemp] at h
    · simp [readTempFile, hemp] at h
      exact h.symm
  subst hp
  show (splitLines (String.mk (trimChars (joinLines ((splitLines content.data).filter goodLine)))).data).all
      goodLine = true
  apply all_goodLine_trimChars
  cases hk : (splitLines content.data).filter goodLine with
  | nil =>
    have : joinLines [] = [] := rfl
    rw [this]
    have hg : goodLine ([] : List Char) = true := by
      simp [goodLine, trimChars, trimLeftChars, trimRightChars, startsWithHash]
    simp [splitLines, hg]
  | cons l ls =>
    rw [← hk]
    rw [splitLines_joinLines]
    · rw [List.all_eq_true]
      intro x hx
      exact List.of_mem_filter hx
    · rw [hk]; simp
    · intro x hx
      exact splitLines_no_newline (List.mem_of_mem_filter hx)

/-- Witness for C5 at a concrete editor content: the line with leading
whitespace before (#) is removed and the returned prompt has no comment line. -/
theorem editor_output_has_no_comment_line_witness :
    (splitLines (String.data "hello")).all goodLine = true :=
  editor_output_has_no_comment_line "hello\n   # note" "hello" rfl

/-- Claim C6: for every outcome of an editor acquisition (launch failure,
non-zero exit, temp-file read failure, or success), the temporary file is
deleted when the call settles: when the deletion succeeds the file no longer
exists, and a failing deletion leaves the settled result unchanged and only
logs a warning. -/
theorem temp_file_deleted_on_every_path (ev : EditorEvent)
    (rawRead : Except String String) (tmpPath : String) :
    (handleEditorProcess ev rawRead none tmpPath).tempFileExists = false ∧
    (∀ e, (handleEditorProcess ev rawRead (some e) tmpPath).result =
        (handleEditorProcess ev rawRead none tmpPath).result) ∧
    (∀ e, (handleEditorProcess ev rawRead (some e) tmpPath).warnings ≠ []) := by
  cases ev <;> simp [handleEditorProcess, deleteTempFile]

/-- Witness for C6 at concrete inputs: a non-zero editor exit with a
successful deletion leaves no temporary file behind. -/
theorem temp_file_deleted_on_every_path_witness :
    (handleEditorProcess (EditorEvent.exited 2) (Except.ok "text") none "/tmp/t").tempFileExists
      = false :=
  (temp_file_deleted_on_every_path (EditorEvent.exited 2) (Except.ok "text") "/tmp/t").1

/-!
Prompt composer model, from `main` in `src/pipe-ai.js` (the current entry
revision, lines 264-276).
-/

/-- JavaScript truthiness of an optional CLI string value: `undefined` and
the empty string are falsy. -/
def truthy : Option String → Bool
  | none => false
  | some s => ! s.isEmpty

/-- The four prompt-acquisition strategies of the composer. -/
inductive PromptStrategy
  | editorSession
  | literalMessage (msg : String)
  | interactiveCapture
  | emptyPrompt
deriving DecidableEq

/-- Model of the prompt selection in `main` (`src/pipe-ai.js` lines 264-272):

if useEditor, acquire from the editor; else if neither a pre-prompt nor a
message is present, acquire interactively; else use the message when truthy
and the empty prompt otherwise. -/
def choosePromptSource (useEditor : Bool) (promptMessage : Option String)
    (prePrompt : String) : PromptStrategy :=
  if useEditor then PromptStrategy.editorSession
  else if prePrompt.isEmpty && ! truthy promptMessage then PromptStrategy.interactiveCapture
  else
    match promptMessage with
    | some m => if m.isEmpty then PromptStrategy.emptyPrompt else PromptStrategy.literalMessage m
    | none => PromptStrategy.emptyPrompt

/-- Modelled from the spec (section 4.4 decision policy, as restated by claim
C2): first applicable rule wins, in the order editor, non-empty literal
message, interactive capture when neither pre-prompt nor message is present,
and otherwise the empty prompt. -/
def composerSpecChoice (useEditor : Bool) (literalMessage : Option String)
    (prePrompt : String) : PromptStrategy :=
  if useEditor then PromptStrategy.editorSession
  else if truthy literalMessage then PromptStrategy.literalMessage (literalMessage.getD "")
  else if prePrompt.isEmpty then PromptStrategy.interactiveCapture
  else PromptStrategy.emptyPrompt

/-- Claim C2: for every combination of options the composer chooses exactly
one acquisition strategy, and the choice follows the fixed priority of the
specification decision table. -/
theorem composer_follows_priority (useEditor : Bool) (promptMessage : Option String)
    (prePrompt : String) :
    choosePromptSource useEditor promptMessage prePrompt
      = composerSpecChoice useEditor promptMessage prePrompt := by
  cases useEditor with
  | true => rfl
  | false =>
    cases promptMessage with
    | none =>
      cases hp : prePrompt.isEmpty <;>
        simp [choosePromptSource, composerSpecChoice, truthy, hp]
    | some m =>
      cases hm : m.isEmpty <;> cases hp : prePrompt.isEmpty <;>
        simp [choosePromptSource, composerSpecChoice, truthy, hm, hp]

/-!
Final payload join, from `main` in `src/pipe-ai.js` line 276:
`const fullPrompt = [prePrompt, prompt].join("\n");`.
-/

/-- Model of the final payload: the pre-prompt and the prompt joined with a
newline (no filtering of empty parts appears at `src/pipe-ai.js` line 276). -/
def fullPrompt (prePrompt prompt : String) : String :=
  String.intercalate "\n" [prePrompt, prompt]

/-- Counterexample to claim C1: with an empty pre-prompt and prompt "hi" the
payload is "\nhi", not "hi" — a leading newline is not dropped. -/
theorem payload_counterexample : fullPrompt "" "hi" ≠ "hi" := by decide

/-- Claim C1 amended: the final payload is always the pre-prompt, a newline,
and the prompt, even when either part is empty; an empty pre-prompt yields a
leading newline and an empty prompt yields a trailing newline. -/
theorem payload_always_joined_with_newline (prePrompt prompt : String) :
    fullPrompt prePrompt prompt = prePrompt ++ "\n" ++ prompt := rfl

/-!
Editor command selection, from `getDefaultEditor` in
`src/lib/editorPrompt.js` lines 59-64.
-/

/-- JavaScript `a || b` for an optional environment value against a string
default: `undefined` and the empty string fall through. -/
def jsOrElse (a : Option String) (b : String) : String :=
  match a with
  | none => b
  | some s => if s.isEmpty then b else s

/-- Model of `getDefaultEditor`:
`process.env.GIT_EDITOR || process.env.VISUAL || process.env.EDITOR ||
(win32 ? "notepad" : "vi")`. The environment is a partial map from variable
names to values. -/
def getDefaultEditor (env : String → Option String) (isWin32 : Bool) : String :=
  jsOrElse (env "GIT_EDITOR")
    (jsOrElse (env "VISUAL")
      (jsOrElse (env "EDITOR")
        (if isWin32 then "notepad" else "vi")))

/-- An environment that sets GIT_EDITOR and VISUAL. -/
def envWithGitEditor : String → Option String := fun k =>
  if k = "GIT_EDITOR" then some "nano"
  else if k = "VISUAL" then some "code"
  else none

/-- The same environment without GIT_EDITOR. -/
def envWithoutGitEditor : String → Option String := fun k =>
  if k = "VISUAL" then some "code"
  else none

/-- Counterexample to claim C9: the two environments agree on VISUAL and
EDITOR, yet the selected editor differs, because GIT_EDITOR participates in
the choice and takes precedence over VISUAL. -/
theorem editor_choice_counterexample :
    getDefaultEditor envWithGitEditor false = "nano" ∧
    getDefaultEditor envWithoutGitEditor false = "code" ∧
    envWithGitEditor "VISUAL" = envWithoutGitEditor "VISUAL" ∧
    envWithGitEditor "EDITOR" = envWithoutGitEditor "EDITOR" ∧
    ("nano" : String) ≠ "code" := by
  refine ⟨rfl, rfl, rfl, rfl, by decide⟩

/-- Claim C9 amended: the editor command consults GIT_EDITOR first, then
VISUAL, then EDITOR, then the platform default (notepad on Windows, vi
otherwise), and no other environment variable participates in the choice. -/
theorem editor_choice_priority (env : String → Option String) (isWin32 : Bool) :
    (∀ g, env "GIT_EDITOR" = some g → ¬ g.isEmpty = true →
      getDefaultEditor env isWin32 = g) ∧
    (truthy (env "GIT_EDITOR") = false → ∀ v, env "VISUAL" = some v → ¬ v.isEmpty = true →
      getDefaultEditor env isWin32 = v) ∧
    (truthy (env "GIT_EDITOR") = false → truthy (env "VISUAL") = false →
      ∀ e, env "EDITOR" = some e → ¬ e.isEmpty = true →
      getDefaultEditor env isWin32 = e) ∧
    (truthy (env "GIT_EDITOR") = false → truthy (env "VISUAL") = false →
      truthy (env "EDITOR") = false →
      getDefaultEditor env isWin32 = (if isWin32 then "notepad" else "vi")) ∧
    (∀ env2 : String → Option String,
      env "GIT_EDITOR" = env2 "GIT_EDITOR" → env "VISUAL" = env2 "VISUAL" →
      env "EDITOR" = env2 "EDITOR" →
      getDefaultEditor env isWin32 = getDefaultEditor env2 isWin32) := by
  refine ⟨?_, ?_, ?_, ?_, ?_⟩
  · intro g hg hge
    have hge2 : g.isEmpty = false := by simpa using hge
    simp [getDefaultEditor, jsOrElse, hg, hge2]
  · intro hgit v hv hve
    have hve2 : v.isEmpty = false := by simpa using hve
    cases hg : env "GIT_EDITOR" with
    | none => simp [getDefaultEditor, jsOrElse, hg, hv, hve2]
    | some g =>
      rw [hg] at hgit
      have : g.isEmpty = true := by simpa [truthy] using hgit
      simp [getDefaultEditor, jsOrElse, hg, this, hv, hve2]
  · intro hgit hvis e he hee
    have hee2 : e.isEmpty = false := by simpa using hee
    cases hg : env "GIT_EDITOR" with
    | none =>
      cases hv : env "VISUAL" with
      | none => simp [getDefaultEditor, jsOrElse, hg, hv, he, hee2]
      | some v =>
        rw [hv] at hvis
        have : v.isEmpty = true := by simpa [truthy] using hvis
        simp [getDefaultEditor, jsOrElse, hg, hv, this, he, hee2]
    | some g =>
      rw [hg] at hgit
      have hgem : g.isEmpty = true := by simpa [truthy] using hgit
      cases hv : env "VISUAL" with
      | none => simp [getDefaultEditor, jsOrElse, hg, hgem, hv, he, hee2]
      | some v =>
        rw [hv] at hvis
        have : v.isEmpty = true := by simpa [truthy] using hvis
        simp [getDefaultEditor, jsOrElse, hg, hgem, hv, this, he, hee2]
  · intro hgit hvis hedi
    cases hg : env "GIT_EDITOR" with
    | none =>
      cases hv : env "VISUAL" with
      | none =>
        cases he : env "EDITOR" with
        | none => simp [getDefaultEditor, jsOrElse, hg, hv, he]
        | some e =>
          rw [he] at hedi
          have : e.isEmpty = true := by simpa [truthy] using hedi
          simp [getDefaultEditor, jsOrElse, hg, hv, he, this]
      | some v =>
        rw [hv] at hvis
        have hvem : v.isEmpty = true := by simpa [truthy] using hvis
        cases he : env "EDITOR" with
        | none => simp [getDefaultEditor, jsOrElse, hg, hv, hvem, he]
        | some e =>
          rw [he] at hedi
          have : e.isEmpty = true := by simpa [truthy] using hedi
          simp [getDefaultEditor, jsOrElse, hg, hv, hvem, he, this]
    | some g =>
      rw [hg] at hgit
      have hgem : g.isEmpty = true := by simpa [truthy] using hgit
      cases hv : env "VISUAL" with
      | none =>
        cases he : env "EDITOR" with
        | none => simp [getDefaultEditor, jsOrElse, hg, hgem, hv, he]
        | some e =>
          rw [he] at hedi
          have : e.isEmpty = true := by simpa [truthy] using hedi
          simp [getDefaultEditor, jsOrElse, hg, hgem, hv, he, this]
      | some v =>
        rw [hv] at hvis
        have hvem : v.isEmpty = true := by simpa [truthy] using hvis
        cases he : env "EDITOR" with
        | none => simp [getDefaultEditor, jsOrElse, hg, hgem, hv, hvem, he]
        | some e =>
          rw [he] at hedi
          have : e.isEmpty = true := by simpa [truthy] using hedi
          simp [getDefaultEditor, jsOrElse, hg, hgem, hv, hvem, he, this]
  · intro env2 h1 h2 h3
    simp [getDefaultEditor, h1, h2, h3]

/-- Witness for the amended C9 at a concrete environment: with GIT_EDITOR
set to "nano", the selected editor is "nano". -/
theorem editor_choice_priority_witness :
    getDefaultEditor envWithGitEditor false = "nano" :=
  (editor_choice_priority envWithGitEditor false).1 "nano" rfl (by decide)

/-!
Interactive terminal capture, from `getInteractiveUserPrompt` in
`src/lib/input.js` lines 53-67: the close handler joins the captured lines
with a newline and rejects a blank result.
-/

/-- Model of the readline close handler: `const prompt = lines.join("\n");
if (!prompt.trim()) throw ...; resolve(prompt);`. -/
def interactiveCloseHandler (lines : List String) : Except String String :=
  let prompt := String.intercalate "\n" lines
  if (jsTrim prompt).isEmpty then
    Except.error "Prompt cannot be empty. Please provide a prompt using the -m option."
  else Except.ok prompt

/-- Claim C8: if the captured lines joined with newline are blank after
trimming, the interactive acquisition fails with the empty-prompt error and
never resolves; otherwise it resolves with exactly the joined lines. -/
theorem interactive_blank_is_error (lines : List String) :
    ((jsTrim (String.intercalate "\n" lines)).isEmpty = true →
      interactiveCloseHandler lines =
        Except.error "Prompt cannot be empty. Please provide a prompt using the -m option.") ∧
    ((jsTrim (String.intercalate "\n" lines)).isEmpty = false →
      interactiveCloseHandler lines = Except.ok (String.intercalate "\n" lines)) ∧
    (∀ p, interactiveCloseHandler lines = Except.ok p → (jsTrim p).isEmpty = false) := by
  refine ⟨?_, ?_, ?_⟩
  · intro h
    simp [interactiveCloseHandler, h]
  · intro h
    simp [interactiveCloseHandler, h]
  · intro p hp
    by_cases h : (jsTrim (String.intercalate "\n" lines)).isEmpty = true
    · simp [interactiveCloseHandler, h] at hp
    · have h2 : (jsTrim (String.intercalate "\n" lines)).isEmpty = false := by
        simpa using h
      simp [interactiveCloseHandler, h2] at hp
      rw [← hp]
      exact h2

/-- Witness for C8 at concrete inputs: blank lines are rejected and a
non-blank capture resolves with the joined lines. -/
theorem interactive_blank_is_error_witness :
    interactiveCloseHandler ["  ", " "] =
      Except.error "Prompt cannot be empty. Please provide a prompt using the -m option." ∧
    interactiveCloseHandler ["hi", "there"] = Except.ok "hi\nthere" :=
  ⟨(interactive_blank_is_error ["  ", " "]).1 rfl,
   (interactive_blank_is_error ["hi", "there"]).2.1 rfl⟩

/-!
File resolution, from `loadFile` in `src/lib/utils.js` lines 18-78.

The filesystem is a partial map from path strings to entries; a path is
taken to name the same entry under `path.resolve`, so resolution is the
identity on the model's path strings.
-/

/-- A filesystem entry: a regular file with content, or a non-regular entry
such as a directory. -/
inductive FSEntry
  | fileEntry (content : String)
  | dirEntry
deriving DecidableEq

/-- A filesystem: a partial map from paths to entries. -/
def FS : Type := String → Option FSEntry

/-- Model of `fs.existsSync(p) && fs.lstatSync(p).isFile()`. -/
def existsAsFile (fs : FS) (p : String) : Bool :=
  match fs p with
  | some (FSEntry.fileEntry _) => true
  | _ => false

/-- Model of `path.join(dir, file)`. -/
def pathJoin (dir file : String) : String :=
  dir ++ "/" ++ file

/-- One row of the `FILE_TYPES` table in `loadFile`. -/
structure FileTypeInfo where
  userDir : String
  installDir : String
  extension : String
deriving DecidableEq

/-- Model of the `FILE_TYPES` table together with the supported-type check:
config maps to the user config directory, the install config directory and
the .yaml extension; prompt maps to the prompts directories and .txt.
`home` models `os.homedir()` and `installRoot` the directory against which
`path.resolve` resolves the install-level relative paths. -/
def fileTypes (home installRoot : String) (type : String) : Option FileTypeInfo :=
  if type = "config" then
    some { userDir := pathJoin (pathJoin home ".config") "pipe-ai",
           installDir := pathJoin installRoot "config",
           extension := ".yaml" }
  else if type = "prompt" then
    some { userDir := pathJoin (pathJoin (pathJoin home ".config") "pipe-ai") "prompts",
           installDir := pathJoin installRoot "prompts",
           extension := ".txt" }
  else none

/-- The errors `loadFile` can raise. -/
inductive LoadError
  | unsupportedType (msg : String)
  | notFound (msg : String)
  | readFailure (path : String)
deriving DecidableEq

/-- Model of `fs.readFileSync(p, "utf8")`: returns the content of a regular
file and fails on anything else. -/
def readFileSync (fs : FS) (p : String) : Except LoadError String :=
  match fs p with
  | some (FSEntry.fileEntry c) => Except.ok c
  | _ => Except.error (LoadError.readFailure p)

/-- The not-found message of `loadFile` (`src/lib/utils.js` lines 61-73):
both searched directories are listed verbatim, quoted, one per line. -/
def notFoundMessage (identifier type : String) (info : FileTypeInfo) : String :=
  let searchedDirs :=
    String.intercalate "\n" ([info.userDir, info.installDir].map (fun dir => "\"" ++ dir ++ "\""))
  let fileTypeName := if type = "config" then "configuration" else "prompt"
  "Unable to find the " ++ fileTypeName ++ " file \"" ++ identifier ++ "\".\n" ++
    "\nSearched the following directories in order:\n" ++ searchedDirs

/-- Model of `loadFile(identifier, type)` in `src/lib/utils.js`: an
unsupported type is an error; an identifier that is an existing regular file
is read directly; otherwise `identifier + extension` is probed in the user
directory then the install directory and the first regular file found is
read; no candidate is a not-found error listing both directories. -/
def loadFile (fs : FS) (home installRoot : String) (identifier type : String) :
    Except LoadError String :=
  match fileTypes home installRoot type with
  | none =>
    Except.error (LoadError.unsupportedType
      ("Unsupported file type: " ++ type ++ ". Supported types are config and prompt."))
  | some info =>
    let filePath : Option String :=
      if existsAsFile fs identifier then some identifier
      else
        let fileName := identifier ++ info.extension
        [info.userDir, info.installDir].findSome? (fun dir =>
          let potentialPath := pathJoin dir fileName
          if existsAsFile fs potentialPath then some potentialPath else none)
    match filePath with
    | none => Except.error (LoadError.notFound (notFoundMessage identifier type info))
    | some p => readFileSync fs p

/-- Claim C3: when the identifier is not itself an existing regular file and
a candidate `identifier + extension` exists as a regular file in both the
user directory and the install directory, resolution returns the content of
the user-directory file, for both supported kinds. -/
theorem loadFile_user_dir_precedence (fs : FS) (home installRoot identifier type : String)
    (info : FileTypeInfo) (cu ci : String)
    (htype : fileTypes home installRoot type = some info)
    (hdirect : existsAsFile fs identifier = false)
    (huser : fs (pathJoin info.userDir (identifier ++ info.extension))
      = some (FSEntry.fileEntry cu))
    (_hinstall : fs (pathJoin info.installDir (identifier ++ info.extension))
      = some (FSEntry.fileEntry ci)) :
    loadFile fs home installRoot identifier type = Except.ok cu := by
  have huserb : existsAsFile fs (pathJoin info.userDir (identifier ++ info.extension)) = true := by
    simp [existsAsFile, huser]
  simp [loadFile, htype, hdirect, List.findSome?, huserb, readFileSync, huser]

/-- A concrete filesystem holding a prompt named summarize in both search
directories. -/
def fsBothDirs : FS := fun p =>
  if p = "/home/u/.config/pipe-ai/prompts/summarize.txt" then some (FSEntry.fileEntry "USER")
  else if p = "/app/prompts/summarize.txt" then some (FSEntry.fileEntry "INSTALL")
  else none

/-- Witness for C3 at a concrete filesystem: the user-directory copy wins. -/
theorem loadFile_user_dir_precedence_witness :
    loadFile fsBothDirs "/home/u" "/app" "summarize" "prompt" = Except.ok "USER" :=
  loadFile_user_dir_precedence fsBothDirs "/home/u" "/app" "summarize" "prompt"
    { userDir := "/home/u/.config/pipe-ai/prompts",
      installDir := "/app/prompts", extension := ".txt" }
    "USER" "INSTALL" rfl rfl rfl rfl

/-- Claim C4: an identifier that is itself an existing regular file is read
directly, for every supported kind, whatever the search directories hold. -/
theorem loadFile_direct_path (fs : FS) (home installRoot identifier type : String)
    (info : FileTypeInfo) (c : String)
    (htype : fileTypes home installRoot type = some info)
    (hfile : fs identifier = some (FSEntry.fileEntry c)) :
    loadFile fs home installRoot identifier type = Except.ok c := by
  have hdirect : existsAsFile fs identifier = true := by
    simp [existsAsFile, hfile]
  simp [loadFile, htype, hdirect, readFileSync, hfile]

/-- A concrete filesystem where the identifier is itself a file and both
search directories also hold a like-named candidate. -/
def fsDirectPath : FS := fun p =>
  if p = "/work/notes.txt" then some (FSEntry.fileEntry "DIRECT")
  else if p = "/home/u/.config/pipe-ai/prompts//work/notes.txt.txt" then
    some (FSEntry.fileEntry "USER")
  else if p = "/app/prompts//work/notes.txt.txt" then some (FSEntry.fileEntry "INSTALL")
  else none

/-- Witness for C4 at a concrete filesystem: the direct path wins over both
search-directory candidates. -/
theorem loadFile_direct_path_witness :
    loadFile fsDirectPath "/home/u" "/app" "/work/notes.txt" "prompt" = Except.ok "DIRECT" :=
  loadFile_direct_path fsDirectPath "/home/u" "/app" "/work/notes.txt" "prompt"
    { userDir := "/home/u/.config/pipe-ai/prompts",
      installDir := "/app/prompts", extension := ".txt" }
    "DIRECT" rfl rfl

/-- Claim C7: when the identifier is not an existing regular file and no
candidate exists in either search directory, resolution fails with the
not-found error; its message lists the user directory and the install
directory verbatim, and no content is ever returned. -/
theorem loadFile_not_found (fs : FS) (home installRoot identifier type : String)
    (info : FileTypeInfo)
    (htype : fileTypes home installRoot type = some info)
    (hdirect : existsAsFile fs identifier = false)
    (huser : existsAsFile fs (pathJoin info.userDir (identifier ++ info.extension)) = false)
    (hinstall : existsAsFile fs (pathJoin info.installDir (identifier ++ info.extension)) = false) :
    loadFile fs home installRoot identifier type
      = Except.error (LoadError.notFound (notFoundMessage identifier type info)) ∧
    (∃ a b c, notFoundMessage identifier type info
      = a ++ info.userDir ++ b ++ info.installDir ++ c) ∧
    (∀ c, loadFile fs home installRoot identifier type ≠ Except.ok c) := by
  have hres : loadFile fs home installRoot identifier type
      = Except.error (LoadError.notFound (notFoundMessage identifier type info)) := by
    simp [loadFile, htype, hdirect, List.findSome?, huser, hinstall]
  refine ⟨hres, ?_, ?_⟩
  · refine ⟨"Unable to find the " ++ (if type = "config" then "configuration" else "prompt")
      ++ " file \"" ++ identifier ++ "\".\n"
      ++ "\nSearched the following directories in order:\n" ++ "\"",
      "\"" ++ "\n" ++ "\"", "\"", ?_⟩
    show notFoundMessage identifier type info = _
    rw [notFoundMessage]
    have hjoin : String.intercalate "\n"
        ([info.userDir, info.installDir].map (fun dir => "\"" ++ dir ++ "\""))
        = "\"" ++ info.userDir ++ "\"" ++ "\n" ++ ("\"" ++ info.installDir ++ "\"") := rfl
    rw [hjoin]
    simp only [String.append_assoc]
  · intro c hc
    rw [hres] at hc
    exact Except.noConfusion hc

/-- A filesystem with no entries at all. -/
def fsEmpty : FS := fun _ => none

/-- Witness for C7 at a concrete filesystem with no candidate anywhere. -/
theorem loadFile_not_found_witness :
    loadFile fsEmpty "/home/u" "/app" "summarize" "prompt"
      = Except.error (LoadError.notFound (notFoundMessage "summarize" "prompt"
          { userDir := "/home/u/.config/pipe-ai/prompts",
            installDir := "/app/prompts", extension := ".txt" })) :=
  (loadFile_not_found fsEmpty "/home/u" "/app" "summarize" "prompt"
    { userDir := "/home/u/.config/pipe-ai/prompts",
      installDir := "/app/prompts", extension := ".txt" } rfl rfl rfl rfl).1

/-- Claim C10: an identifier naming an existing entry that is not a regular
file is never used directly: resolution falls through to the
`identifier + extension` search of the user directory then the install
directory, and fails with the not-found error when neither candidate is a
regular file. -/
theorem loadFile_skips_non_regular_entry (fs : FS)
    (home installRoot identifier type : String) (info : FileTypeInfo)
    (htype : fileTypes home installRoot type = some info)
    (hdir : fs identifier = some FSEntry.dirEntry) :
    (∀ cu, fs (pathJoin info.userDir (identifier ++ info.extension))
        = some (FSEntry.fileEntry cu) →
      loadFile fs home installRoot identifier type = Except.ok cu) ∧
    (existsAsFile fs (pathJoin info.userDir (identifier ++ info.extension)) = false →
      ∀ ci, fs (pathJoin info.installDir (identifier ++ info.extension))
        = some (FSEntry.fileEntry ci) →
      loadFile fs home installRoot identifier type = Except.ok ci) ∧
    (existsAsFile fs (pathJoin info.userDir (identifier ++ info.extension)) = false →
      existsAsFile fs (pathJoin info.installDir (identifier ++ info.extension)) = false →
      loadFile fs home installRoot identifier type
        = Except.error (LoadError.notFound (notFoundMessage identifier type info))) := by
  have hdirect : existsAsFile fs identifier = false := by
    simp [existsAsFile, hdir]
  refine ⟨?_, ?_, ?_⟩
  · intro cu hu
    have hub : existsAsFile fs (pathJoin info.userDir (identifier ++ info.extension)) = true := by
      simp [existsAsFile, hu]
    simp [loadFile, htype, hdirect, List.findSome?, hub, readFileSync, hu]
  · intro hu ci hi
    have hib : existsAsFile fs (pathJoin info.installDir (identifier ++ info.extension)) = true := by
      simp [existsAsFile, hi]
    simp [loadFile, htype, hdirect, List.findSome?, hu, hib, readFileSync, hi]
  · intro hu hi
    simp [loadFile, htype, hdirect, List.findSome?, hu, hi]

/-- A concrete filesystem where the identifier names a directory and only
the install search directory holds the candidate file. -/
def fsWithDirEntry : FS := fun p =>
  if p = "summarize" then some FSEntry.dirEntry
  else if p = "/app/prompts/summarize.txt" then some (FSEntry.fileEntry "INSTALL")
  else none

/-- Witness for C10 at a concrete filesystem: the directory named by the
identifier is skipped and the install-directory candidate is returned. -/
theorem loadFile_skips_non_regular_entry_witness :
    loadFile fsWithDirEntry "/home/u" "/app" "summarize" "prompt" = Except.ok "INSTALL" :=
  (loadFile_skips_non_regular_entry fsWithDirEntry "/home/u" "/app" "summarize" "prompt"
    { userDir := "/home/u/.config/pipe-ai/prompts",
      installDir := "/app/prompts", extension := ".txt" } rfl rfl).2.1 rfl "INSTALL" rfl
